import Mathlib

/-!
Shallow embedding of `src/app.py` (self-service IP whitelisting service).

The service is a Flask app backed by Redis.  Redis serves as both the Trust
Store and the Trust Cache of the design document (the variant with no separate
cache layer).  We model:

* the Redis keyspace as an association list from key strings to values
  (hashes written by HSET, sets written by SADD);
* the pipeline (MULTI/EXEC) as a queued command list applied in order, where a
  WRONGTYPE command flags an error but the remaining commands still execute
  (real EXEC semantics; redis-py then raises, which `trust_me` turns into 400);
* store connectivity as a boolean `storeOk`: when false, the first Redis
  access of the request raises (connection/timeout error);
* Python strings as Lean strings, with `strip`, `split` and slicing translated
  to character-list operations;
* the standard `ipaddress` library's `ip_address` for IPv4 (dotted quad, no
  leading zeros, octets 0-255, parse then re-serialize to canonical form); the
  IPv6 branch of the library is not modelled;
* configured trusted subnets as IPv4 networks (address plus prefix length).

SMEMBERS returns the set in our insertion order (a deterministic refinement of
Redis's unspecified order; no claim depends on the order beyond which elements
are present).
-/

deriving instance DecidableEq for Except

namespace IpWhitelist

/-- Value stored at one Redis key: `app.py` writes hashes (HSET, line 110)
and sets (SADD, line 111). -/
inductive RVal where
  | hash (fields : List (String × String))
  | rset (members : List String)
deriving DecidableEq, Repr

/-- The Redis keyspace: association list from key to value, first binding
wins. -/
abbrev RedisState := List (String × RVal)

/-- Look a key up in the keyspace. -/
def rget : RedisState → String → Option RVal
  | [], _ => none
  | (k', v) :: t, k => if k' = k then some v else rget t k

/-- Remove every binding of a key (Redis DEL). -/
def rrem : RedisState → String → RedisState
  | [], _ => []
  | (k', v) :: t, k => if k' = k then rrem t k else (k', v) :: rrem t k

/-- Bind a key to a value, replacing any previous binding. -/
def rput (s : RedisState) (k : String) (v : RVal) : RedisState :=
  (k, v) :: rrem s k

/-- Redis EXISTS (line 60 of `app.py`). -/
def rexists (s : RedisState) (k : String) : Bool := (rget s k).isSome

/-- Redis SMEMBERS (line 92): a missing key is the empty set; a key holding a
hash is a WRONGTYPE error. -/
def smembers (s : RedisState) (k : String) : Except Unit (List String) :=
  match rget s k with
  | none => .ok []
  | some (.rset ms) => .ok ms
  | some (.hash _) => .error ()

/-- Update one field of a hash, as HSET does on an existing hash. -/
def setField : List (String × String) → String → String → List (String × String)
  | [], f, v => [(f, v)]
  | (f', v') :: t, f, v => if f' = f then (f, v) :: t else (f', v') :: setField t f v

/-- Commands `trust_me` queues on the pipeline (lines 96, 105, 109-111). -/
inductive Cmd where
  | del (k : String)
  | hset (k f v : String)
  | sadd (k m : String)
deriving DecidableEq, Repr

/-- Apply one pipeline command; the boolean reports a WRONGTYPE error
(the command then leaves the state unchanged, as in Redis). -/
def applyCmd (s : RedisState) : Cmd → RedisState × Bool
  | .del k => (rrem s k, false)
  | .hset k f v =>
    match rget s k with
    | none => (rput s k (.hash [(f, v)]), false)
    | some (.hash fs) => (rput s k (.hash (setField fs f v)), false)
    | some (.rset _) => (s, true)
  | .sadd k m =>
    match rget s k with
    | none => (rput s k (.rset [m]), false)
    | some (.rset ms) => (rput s k (.rset (if m ∈ ms then ms else ms ++ [m])), false)
    | some (.hash _) => (s, true)

/-- `pipe.execute()` (line 112): run all queued commands in order inside
MULTI/EXEC; the boolean is true when any command errored (redis-py then
raises after EXEC, but the other commands have executed). -/
def execPipe (s : RedisState) : List Cmd → RedisState × Bool
  | [] => (s, false)
  | c :: cs =>
    let r := applyCmd s c
    let r' := execPipe r.1 cs
    (r'.1, r.2 || r'.2)

/-- Python `str.strip()` over the character sequence. -/
def strip (x : String) : String :=
  ⟨((x.data.dropWhile Char.isWhitespace).reverse.dropWhile Char.isWhitespace).reverse⟩

/-- Python `s.split(',')[0]`: the characters before the first comma. -/
def firstCommaToken (x : String) : String :=
  ⟨x.data.takeWhile (fun c => c ≠ ',')⟩

/-- `header_value.strip().split(',')[0].strip()` (line 140). -/
def headerToken (v : String) : String := strip (firstCommaToken (strip v))

/-- Python `str.startswith` (line 93). -/
def startswith (x p : String) : Bool := p.data.isPrefixOf x.data

/-- Python slicing `x[n:]` over the character sequence (line 99). -/
def dropStr (x : String) (n : Nat) : String := ⟨x.data.drop n⟩

/-- One octet of a dotted quad, per `ipaddress._parse_octet`: non-empty, only
decimal digits, at most 3 of them, no leading zero, value at most 255. -/
def parseOctet (l : List Char) : Option Nat :=
  if l.isEmpty then none
  else if l.any (fun c => !c.isDigit) then none
  else if l.length > 3 then none
  else if 1 < l.length && l.head? == some '0' then none
  else
    let n := l.foldl (fun n c => n * 10 + (c.toNat - 48)) 0
    if n ≤ 255 then some n else none

/-- Split a character list at every dot, as Python `s.split('.')`. -/
def splitDots : List Char → List (List Char)
  | [] => [[]]
  | c :: t =>
    match splitDots t with
    | [] => [[c]]
    | h :: r => if c = '.' then [] :: h :: r else (c :: h) :: r

/-- An IPv4 address as four octets. -/
structure IPv4 where
  o1 : Nat
  o2 : Nat
  o3 : Nat
  o4 : Nat
deriving DecidableEq, Repr

/-- `ipaddress.ip_address` restricted to IPv4: exactly four octets. -/
def parseIPv4 (x : String) : Option IPv4 :=
  match splitDots x.data with
  | [a, b, c, d] =>
    match parseOctet a, parseOctet b, parseOctet c, parseOctet d with
    | some w, some p, some q, some r => some ⟨w, p, q, r⟩
    | _, _, _, _ => none
  | _ => none

/-- `str(ipaddress.ip_address(...))`: the canonical dotted-quad form. -/
def ipv4Str (a : IPv4) : String :=
  toString a.o1 ++ "." ++ toString a.o2 ++ "." ++ toString a.o3 ++ "." ++ toString a.o4

/-- The address as a 32-bit number. -/
def ipNum (a : IPv4) : Nat := ((a.o1 * 256 + a.o2) * 256 + a.o3) * 256 + a.o4

/-- A configured trusted subnet (CIDR): network address and prefix length. -/
structure Net where
  addr : Nat
  plen : Nat
deriving DecidableEq, Repr

/-- Python `ip_address in ip_network`: the high `plen` bits agree. -/
def inNet (a : IPv4) (n : Net) : Bool :=
  ipNum a / 2 ^ (32 - n.plen) = n.addr / 2 ^ (32 - n.plen)

/-- `any(ipaddress.ip_address(ip) in subnet for subnet in trusted_subnets)`
(lines 59 and 85).  The generator is lazy: with no subnets configured,
`ip_address` is never called, so a malformed string raises only when at least
one subnet exists. -/
def inAnySubnet (subnets : List Net) (ip : String) : Except Unit Bool :=
  match subnets with
  | [] => .ok false
  | _ :: _ =>
    match parseIPv4 ip with
    | none => .error ()
    | some a => .ok (subnets.any (fun n => inNet a n))

/-- The key namespace `REDIS_PREFIX` (default "ip-whitelist") followed by the
colon, as in the f-strings of `app.py`. -/
def nsColon : String := "ip-whitelist:"

/-- The per-IP trust record key, f-string at lines 60 and 108. -/
def ipKey (ip : String) : String := nsColon ++ ip

/-- The per-identity index key, f-string at lines 92, 109 and 111. -/
def userKey (u : String) : String := nsColon ++ "user:" ++ u

/-- `is_trusted` (lines 58-60): subnet membership first, short-circuiting the
Redis EXISTS.  Returns the verdict (or the raised exception) together with the
number of Redis accesses performed.  The second component is also the cache
access count: in this variant Redis is both the Trust Store and the Trust
Cache, and there is no other cache. -/
def is_trusted (subnets : List Net) (s : RedisState) (storeOk : Bool) (ip : String) :
    Except Unit Bool × Nat :=
  match inAnySubnet subnets ip with
  | .error _ => (.error (), 0)
  | .ok true => (.ok true, 0)
  | .ok false =>
    if storeOk then (.ok (rexists s (ipKey ip)), 1) else (.error (), 1)

/-- The `/check` handler body after IP extraction (lines 66-73): 204 when
trusted, 403 when not, 400 when anything raised.  Returns the HTTP status and
the number of Redis accesses performed. -/
def check_core (subnets : List Net) (s : RedisState) (storeOk : Bool) (ip : String) :
    Nat × Nat :=
  match is_trusted subnets s storeOk ip with
  | (.ok true, n) => (204, n)
  | (.ok false, n) => (403, n)
  | (.error _, n) => (400, n)

/-- How a `trust_me` request ended. -/
inductive TMOutcome where
  | inSubnet
  | unchanged
  | updated
  | inputError
  | configError
  | storeError
deriving DecidableEq, Repr

/-- Result of a `trust_me` request: HTTP status, which path was taken, the
Redis state afterwards, and how many write commands were sent for execution. -/
structure TMRes where
  status : Nat
  outcome : TMOutcome
  state : RedisState
  writes : Nat
deriving DecidableEq, Repr

/-- The revocation loop (lines 92-105): walk the identity's member keys,
queueing a DEL for each (whether or not it carries the namespace prefix), and
abort with `none` (the early `return` at line 102, which discards the queued
pipeline) as soon as a member names the new IP itself. -/
def revokeLoop (newIp : String) : List String → Option (List Cmd)
  | [] => some []
  | k :: ks =>
    if startswith k nsColon then
      if dropStr k nsColon.length = newIp then none
      else (revokeLoop newIp ks).map (fun cs => Cmd.del k :: cs)
    else (revokeLoop newIp ks).map (fun cs => Cmd.del k :: cs)

/-- The `/trust_me` handler body after header extraction (lines 85-119):
subnet short-circuit, revocation loop, then the pipeline DEL/HSET/SADD.  A
raised exception anywhere gives status 400 (lines 117-119). -/
def trust_me_core (subnets : List Net) (s : RedisState) (storeOk : Bool)
    (username newIp : String) : TMRes :=
  match inAnySubnet subnets newIp with
  | .error _ => ⟨400, .inputError, s, 0⟩
  | .ok true => ⟨204, .inSubnet, s, 0⟩
  | .ok false =>
    if storeOk then
      match smembers s (userKey username) with
      | .error _ => ⟨400, .storeError, s, 0⟩
      | .ok ms =>
        match revokeLoop newIp ms with
        | none => ⟨204, .unchanged, s, 0⟩
        | some dels =>
          let cmds := dels ++ [Cmd.del (userKey username),
            Cmd.hset (ipKey newIp) "username" username,
            Cmd.sadd (userKey username) (ipKey newIp)]
          let r := execPipe s cmds
          if r.2 then ⟨400, .storeError, r.1, cmds.length⟩
          else ⟨204, .updated, r.1, cmds.length⟩
    else ⟨400, .storeError, s, 0⟩

/-- `get_client_ip` (lines 135-145): read the configured header (default
"X-Forwarded-For"), take the first comma-separated token trimmed, parse it
with the address library and return the canonical form; raise on a missing
header or an unparseable token. -/
def get_client_ip (cfgIpHeader : Option String) (headers : List (String × String)) :
    Except Unit String :=
  match headers.lookup (cfgIpHeader.getD "X-Forwarded-For") with
  | none => .error ()
  | some v =>
    match parseIPv4 (headerToken v) with
    | none => .error ()
    | some a => .ok (ipv4Str a)

/-- Why `get_client_username` raised. -/
inductive UserErr where
  | noConfig
  | noHeader
  | emptyHeader
deriving DecidableEq, Repr

/-- `get_client_username` (lines 147-159): a missing (or empty)
CLIENT_USERNAME_HEADER configuration raises RuntimeError; a missing or empty
header value raises ValueError. -/
def get_client_username (cfgUserHeader : Option String) (headers : List (String × String)) :
    Except UserErr String :=
  match cfgUserHeader with
  | none => .error .noConfig
  | some h =>
    if h = "" then .error .noConfig
    else
      match headers.lookup h with
      | none => .error .noHeader
      | some v => if v = "" then .error .emptyHeader else .ok v

/-- The full `/check` handler (lines 62-73), headers in: extraction failure is
caught and answered with 400 before any Redis access. -/
def check_req (cfgIpHeader : Option String) (headers : List (String × String))
    (subnets : List Net) (s : RedisState) (storeOk : Bool) : Nat × Nat :=
  match get_client_ip cfgIpHeader headers with
  | .error _ => (400, 0)
  | .ok ip => check_core subnets s storeOk ip

/-- The full `/trust_me` handler (lines 75-119), headers in: every raised
exception, including the RuntimeError for a missing identity-header
configuration, is caught by the same handler and answered with 400. -/
def trust_me_req (cfgIpHeader cfgUserHeader : Option String)
    (headers : List (String × String)) (subnets : List Net) (s : RedisState)
    (storeOk : Bool) : TMRes :=
  match get_client_ip cfgIpHeader headers with
  | .error _ => ⟨400, .inputError, s, 0⟩
  | .ok newIp =>
    if newIp = "" then ⟨400, .inputError, s, 0⟩
    else
      match get_client_username cfgUserHeader headers with
      | .error .noConfig => ⟨400, .configError, s, 0⟩
      | .error _ => ⟨400, .inputError, s, 0⟩
      | .ok username => trust_me_core subnets s storeOk username newIp

end IpWhitelist

namespace IpWhitelist

/-! ### Basic facts about the keyspace operations -/

theorem rget_rrem (s : RedisState) (k k' : String) :
    rget (rrem s k) k' = if k' = k then none else rget s k' := by
  induction s with
  | nil => simp [rrem, rget]
  | cons x t ih =>
    obtain ⟨k1, v⟩ := x
    by_cases h1 : k1 = k <;> by_cases h2 : k1 = k' <;> by_cases h3 : k' = k <;>
      simp_all [rrem, rget]

theorem rget_rput_self (s : RedisState) (k : String) (v : RVal) :
    rget (rput s k v) k = some v := by
  simp [rput, rget]

theorem rget_rput_ne (s : RedisState) (k k' : String) (v : RVal) (h : k' ≠ k) :
    rget (rput s k v) k' = rget s k' := by
  have h' : ¬ k = k' := fun e => h e.symm
  simp [rput, rget, h', rget_rrem, h]

theorem rget_foldl_rrem (ms : List String) (s : RedisState) (k : String) :
    rget (ms.foldl rrem s) k = if k ∈ ms then none else rget s k := by
  induction ms generalizing s with
  | nil => simp
  | cons m t ih =>
    by_cases h : k = m
    · subst h
      by_cases ht : k ∈ t <;> simp [ih, rget_rrem, ht]
    · by_cases ht : k ∈ t <;> simp [ih, rget_rrem, h, ht, List.mem_cons]

/-! ### Facts about the pipeline -/

theorem execPipe_append (s : RedisState) (l1 l2 : List Cmd) :
    execPipe s (l1 ++ l2) =
      ((execPipe (execPipe s l1).1 l2).1,
        (execPipe s l1).2 || (execPipe (execPipe s l1).1 l2).2) := by
  induction l1 generalizing s with
  | nil => simp [execPipe]
  | cons c t ih => simp [execPipe, ih, Bool.or_assoc]

theorem execPipe_map_del (ms : List String) (s : RedisState) :
    execPipe s (ms.map Cmd.del) = (ms.foldl rrem s, false) := by
  induction ms generalizing s with
  | nil => simp [execPipe]
  | cons m t ih => simp [execPipe, applyCmd, ih]

/-- The good case of the final three pipeline commands of `trust_me`:
no WRONGTYPE is possible, giving the fresh record plus singleton index. -/
theorem execPipe_tail_ok (t : RedisState) (uK k u : String)
    (hk : ∀ x, rget (rrem t uK) k ≠ some (.rset x)) (hne : uK ≠ k) :
    ∃ fs, execPipe t [Cmd.del uK, Cmd.hset k "username" u, Cmd.sadd uK k] =
      (rput (rput (rrem t uK) k (.hash fs)) uK (.rset [k]), false) := by
  simp only [execPipe, applyCmd]
  cases hg : rget (rrem t uK) k with
  | none =>
    refine ⟨[("username", u)], ?_⟩
    have huK : rget (rput (rrem t uK) k (.hash [("username", u)])) uK = none := by
      rw [rget_rput_ne _ _ _ _ hne, rget_rrem]
      simp
    simp [hg, huK]
  | some v =>
    cases v with
    | hash fs =>
      refine ⟨setField fs "username" u, ?_⟩
      have huK : rget (rput (rrem t uK) k (.hash (setField fs "username" u))) uK = none := by
        rw [rget_rput_ne _ _ _ _ hne, rget_rrem]
        simp
      simp [hg, huK]
    | rset ms => exact absurd hg (hk ms)

/-- The error cases of the final three pipeline commands: a WRONGTYPE record
at the new key, or a collision between the index key and the record key,
makes EXEC report an error. -/
theorem execPipe_tail_err (t : RedisState) (uK k u : String)
    (h : (∃ x, rget (rrem t uK) k = some (.rset x)) ∨ uK = k) :
    (execPipe t [Cmd.del uK, Cmd.hset k "username" u, Cmd.sadd uK k]).2 = true := by
  rcases h with ⟨x, hx⟩ | rfl
  · simp [execPipe, applyCmd, hx]
  · have hg : rget (rrem t uK) uK = none := by rw [rget_rrem]; simp
    simp [execPipe, applyCmd, hg, rget_rput_self]

end IpWhitelist

namespace IpWhitelist

/-! ### Facts about keys and the revocation loop -/

theorem isPrefixOf_self_append (l m : List Char) : l.isPrefixOf (l ++ m) = true := by
  induction l with
  | nil => simp [List.isPrefixOf]
  | cons a t ih => simp [List.isPrefixOf, ih]

theorem isPrefixOf_decomp : ∀ {l₁ l₂ : List Char},
    l₁.isPrefixOf l₂ = true → l₁ ++ l₂.drop l₁.length = l₂
  | [], _, _ => by simp
  | a :: as, [], h => by simp [List.isPrefixOf] at h
  | a :: as, b :: bs, h => by
    simp only [List.isPrefixOf, Bool.and_eq_true, beq_iff_eq] at h
    obtain ⟨h1, h2⟩ := h
    subst h1
    simpa using isPrefixOf_decomp h2

theorem strCancel {p a b : String} (h : p ++ a = p ++ b) : a = b := by
  have hd : p.data ++ a.data = p.data ++ b.data := by
    rw [← String.data_append, ← String.data_append, h]
  exact String.ext (List.append_cancel_left hd)

theorem ipKey_inj {a b : String} (h : ipKey a = ipKey b) : a = b :=
  strCancel h

theorem startswith_append (p x : String) : startswith (p ++ x) p = true := by
  unfold startswith
  rw [String.data_append]
  exact isPrefixOf_self_append _ _

theorem dropStr_append (p x : String) : dropStr (p ++ x) p.length = x := by
  unfold dropStr
  rw [String.data_append]
  have hl : p.length = p.data.length := rfl
  rw [hl, List.drop_left]

theorem startswith_decomp {k p : String} (h : startswith k p = true) :
    p ++ dropStr k p.length = k := by
  unfold startswith at h
  apply String.ext
  rw [String.data_append]
  exact isPrefixOf_decomp h

/-- When the new IP's key is not among the member keys, the loop never takes
its early return and queues exactly one DEL per member. -/
theorem revokeLoop_of_not_mem (newIp : String) (ms : List String)
    (h : ipKey newIp ∉ ms) : revokeLoop newIp ms = some (ms.map Cmd.del) := by
  induction ms with
  | nil => rfl
  | cons k ks ih =>
    have hk : k ≠ ipKey newIp := fun e => h (by simp [e])
    have hks : ipKey newIp ∉ ks := fun e => h (List.mem_cons_of_mem _ e)
    unfold revokeLoop
    by_cases hs : startswith k nsColon = true
    · have hd : ¬ dropStr k nsColon.length = newIp := by
        intro e
        apply hk
        rw [← startswith_decomp hs, e]
        rfl
      simp [hs, hd, ih hks]
    · simp [hs, ih hks]

/-! ### Path characterizations of the handlers -/

/-- A `/check` that reaches the store: verdict from EXISTS, one access. -/
theorem check_core_store (subnets : List Net) (s : RedisState) (ip : String)
    (h : inAnySubnet subnets ip = .ok false) :
    check_core subnets s true ip = (if rexists s (ipKey ip) then 204 else 403, 1) := by
  cases hx : rexists s (ipKey ip) <;>
    simp [check_core, is_trusted, h, hx]

/-- A successful claim along the update path (lines 89-116): all member keys
of the identity's index are deleted, the index key is deleted, the new record
is written and the index is rebuilt as the singleton of the new key. -/
theorem trust_me_update (subnets : List Net) (s : RedisState) (u ip : String)
    (ms : List String)
    (hin : inAnySubnet subnets ip = .ok false)
    (hsm : smembers s (userKey u) = .ok ms)
    (hnm : ipKey ip ∉ ms)
    (hne : userKey u ≠ ipKey ip)
    (hty : ∀ x, rget (ms.foldl rrem s) (ipKey ip) ≠ some (.rset x)) :
    ∃ fs, trust_me_core subnets s true u ip =
      ⟨204, .updated,
        rput (rput (rrem (ms.foldl rrem s) (userKey u)) (ipKey ip) (.hash fs))
          (userKey u) (.rset [ipKey ip]), ms.length + 3⟩ := by
  have hty' : ∀ x, rget (rrem (ms.foldl rrem s) (userKey u)) (ipKey ip) ≠ some (.rset x) := by
    intro x hx
    rw [rget_rrem, if_neg (fun e => hne e.symm)] at hx
    exact hty x hx
  obtain ⟨fs, hex⟩ := execPipe_tail_ok (ms.foldl rrem s) (userKey u) (ipKey ip) u hty' hne
  refine ⟨fs, ?_⟩
  have hpipe : execPipe s (ms.map Cmd.del ++ [Cmd.del (userKey u),
      Cmd.hset (ipKey ip) "username" u, Cmd.sadd (userKey u) (ipKey ip)]) =
      (rput (rput (rrem (ms.foldl rrem s) (userKey u)) (ipKey ip) (.hash fs))
        (userKey u) (.rset [ipKey ip]), false) := by
    rw [execPipe_append, execPipe_map_del]
    simp [hex]
  simp [trust_me_core, hin, hsm, revokeLoop_of_not_mem _ _ hnm, hpipe]

end IpWhitelist

namespace IpWhitelist

/-! ### Claims -/

/-- C3: For every IP address that lies in one of the configured trusted
subnets, `check` succeeds (204) and performs no Trust Store access and no
cache access at all.  The access counter counts every Redis access; in this
variant Redis is both the Trust Store and the Trust Cache, and no other cache
exists, so a zero counter is zero store accesses and zero cache accesses. -/
theorem spec_C3 (subnets : List Net) (s : RedisState) (storeOk : Bool) (ip : String)
    (h : inAnySubnet subnets ip = .ok true) :
    check_core subnets s storeOk ip = (204, 0) := by
  simp [check_core, is_trusted, h]

theorem spec_C3_witness :
    inAnySubnet [⟨ipNum ⟨10, 0, 0, 0⟩, 8⟩] "10.1.2.3" = .ok true ∧
    check_core [⟨ipNum ⟨10, 0, 0, 0⟩, 8⟩] [(ipKey "9.9.9.9", .hash [("username", "bob")])]
      true "10.1.2.3" = (204, 0) :=
  ⟨by decide, spec_C3 _ _ _ _ (by decide)⟩

/-- C9: For every `trust_me(u, ip)` in which `ip` lies in a configured trusted
subnet, the handler returns success (204, the `inSubnet` path of lines 85-87)
and performs no write at all: the Redis state (the Trust Store, which is also
this variant's only cache) after the call is the state before it. -/
theorem spec_C9 (subnets : List Net) (s : RedisState) (storeOk : Bool) (u ip : String)
    (h : inAnySubnet subnets ip = .ok true) :
    trust_me_core subnets s storeOk u ip = ⟨204, .inSubnet, s, 0⟩ := by
  simp [trust_me_core, h]

theorem spec_C9_witness :
    inAnySubnet [⟨ipNum ⟨10, 0, 0, 0⟩, 8⟩] "10.1.2.3" = .ok true ∧
    trust_me_core [⟨ipNum ⟨10, 0, 0, 0⟩, 8⟩] [(ipKey "9.9.9.9", .hash [("username", "bob")])]
      true "alice" "10.1.2.3" =
      ⟨204, .inSubnet, [(ipKey "9.9.9.9", .hash [("username", "bob")])], 0⟩ :=
  ⟨by decide, spec_C9 _ _ _ _ _ (by decide)⟩

/-- C5: Fail-closed reads.  For every `check` during which the Trust Store
raises (the store is consulted, i.e. the IP is not in a trusted range, and
`storeOk = false` models the connectivity/timeout error), the response is 400,
never the 204 success: the IP is not treated as trusted. -/
theorem spec_C5 (subnets : List Net) (s : RedisState) (ip : String)
    (h : inAnySubnet subnets ip = .ok false) :
    check_core subnets s false ip = (400, 1) ∧ (check_core subnets s false ip).1 ≠ 204 := by
  refine ⟨?_, ?_⟩ <;> simp [check_core, is_trusted, h]

theorem spec_C5_witness :
    inAnySubnet [⟨ipNum ⟨10, 0, 0, 0⟩, 8⟩] "8.8.8.8" = .ok false ∧
    check_core [⟨ipNum ⟨10, 0, 0, 0⟩, 8⟩] [] false "8.8.8.8" = (400, 1) :=
  ⟨by decide, (spec_C5 _ _ _ (by decide)).1⟩

/-- C6 as stated is false: a Trust Store error during `trust_me` is caught by
the blanket handler of lines 117-119, which returns 400, not 500.  Concrete
input: identity "alice", IP "8.8.8.8", no trusted subnets, store down. -/
theorem spec_C6_counterexample :
    (trust_me_core [] [] false "alice" "8.8.8.8").outcome = .storeError ∧
    (trust_me_core [] [] false "alice" "8.8.8.8").status = 400 ∧
    (trust_me_core [] [] false "alice" "8.8.8.8").status ≠ 500 := by
  decide

/-- C6 amended: for every `trust_me` request during which the Trust Store
raises an error — a connectivity or timeout error on first access
(`storeOk = false`), or a command failure inside the EXEC of the pipeline
(a WRONGTYPE reported by `pipe.execute()`) — the response status is 400 (the
blanket except of lines 117-119), not 500.  On an EXEC failure the
non-erroring commands have still committed (Redis MULTI/EXEC semantics), so
no state preservation is asserted for that case. -/
theorem spec_C6 (subnets : List Net) (s : RedisState) (storeOk : Bool) (u ip : String)
    (h : (trust_me_core subnets s storeOk u ip).outcome = .storeError) :
    (trust_me_core subnets s storeOk u ip).status = 400 ∧
    (trust_me_core subnets s storeOk u ip).status ≠ 500 := by
  have hs : (trust_me_core subnets s storeOk u ip).status = 400 := by
    unfold trust_me_core at h ⊢
    cases hin : inAnySubnet subnets ip with
    | error e => simp_all
    | ok b =>
      cases b with
      | true => simp_all
      | false =>
        cases storeOk with
        | false => simp_all
        | true =>
          cases hsm : smembers s (userKey u) with
          | error e => simp_all
          | ok ms =>
            cases hrv : revokeLoop ip ms with
            | none => simp_all
            | some dels =>
              cases herr : (execPipe s (dels ++ [Cmd.del (userKey u),
                  Cmd.hset (ipKey ip) "username" u,
                  Cmd.sadd (userKey u) (ipKey ip)])).2 with
              | true => simp_all
              | false => simp_all
  exact ⟨hs, by omega⟩

theorem spec_C6_witness :
    (trust_me_core [] [] false "alice" "8.8.8.8").outcome = .storeError ∧
    (trust_me_core [] [] false "alice" "8.8.8.8").status = 400 ∧
    (trust_me_core [] [(ipKey "5.5.5.5", .rset ["x"])] true "alice" "5.5.5.5").outcome =
      .storeError ∧
    (trust_me_core [] [(ipKey "5.5.5.5", .rset ["x"])] true "alice" "5.5.5.5").status = 400 :=
  ⟨by decide, (spec_C6 [] [] false "alice" "8.8.8.8" (by decide)).1, by decide,
    (spec_C6 [] [(ipKey "5.5.5.5", .rset ["x"])] true "alice" "5.5.5.5" (by decide)).1⟩

/-- C7 as stated is false: when the identity-header-name configuration is
absent, `get_client_username` raises RuntimeError (line 150), but `trust_me`
catches every exception at lines 117-119 and answers 400 — the same status as
a client input error, not a distinct 500. -/
theorem spec_C7_counterexample :
    (trust_me_req none none [("X-Forwarded-For", "1.2.3.4")] [] [] true).status = 400 ∧
    (trust_me_req none none [("X-Forwarded-For", "1.2.3.4")] [] [] true).status ≠ 500 := by
  decide

/-- C7 amended: with the identity-header-name configuration absent, every
`trust_me` request is answered 400 — the same status as a client input error,
not a distinct 500 — and nothing is written. -/
theorem spec_C7 (cfgIpHeader : Option String) (headers : List (String × String))
    (subnets : List Net) (s : RedisState) (storeOk : Bool) :
    (trust_me_req cfgIpHeader none headers subnets s storeOk).status = 400 ∧
    (trust_me_req cfgIpHeader none headers subnets s storeOk).state = s ∧
    (trust_me_req cfgIpHeader none headers subnets s storeOk).writes = 0 := by
  unfold trust_me_req
  cases h : get_client_ip cfgIpHeader headers with
  | error e => simp
  | ok ip => by_cases hi : ip = "" <;> simp [hi, get_client_username]

/-- C8 as stated is false: this variant has no verdict cache and no TTL.  The
first `check("8.8.8.8")` (range 10.0.0.0/8, empty store) consults the store
once; `check` performs no write, so the immediately repeated identical
`check("8.8.8.8")` again consults the store once — one further store call, not
zero. -/
theorem spec_C8_counterexample :
    check_core [⟨ipNum ⟨10, 0, 0, 0⟩, 8⟩] [] true "8.8.8.8" = (403, 1) ∧
    (check_core [⟨ipNum ⟨10, 0, 0, 0⟩, 8⟩] [] true "8.8.8.8").2 ≠ 0 := by
  decide

/-- C8 amended: the Redis-backed variant has no cache layer: every `check` of
an IP outside the trusted ranges performs exactly one store access, so an
immediately repeated `check` performs one further store access rather than
zero. -/
theorem spec_C8 (subnets : List Net) (s : RedisState) (ip : String)
    (h : inAnySubnet subnets ip = .ok false) :
    (check_core subnets s true ip).2 = 1 := by
  rw [check_core_store _ _ _ h]

theorem spec_C8_witness :
    inAnySubnet [⟨ipNum ⟨10, 0, 0, 0⟩, 8⟩] "8.8.8.8" = .ok false ∧
    (check_core [⟨ipNum ⟨10, 0, 0, 0⟩, 8⟩] [] true "8.8.8.8").2 = 1 :=
  ⟨by decide, spec_C8 _ _ _ (by decide)⟩

end IpWhitelist

namespace IpWhitelist

/-- If the loop does not take its early return, it queued exactly one DEL per
member key. -/
theorem revokeLoop_some (newIp : String) : ∀ {ms : List String} {dels : List Cmd},
    revokeLoop newIp ms = some dels → dels = ms.map Cmd.del
  | [], dels, h => by simpa [revokeLoop] using h.symm
  | k :: ks, dels, h => by
    unfold revokeLoop at h
    by_cases hs : startswith k nsColon = true
    · by_cases hd : dropStr k nsColon.length = newIp
      · simp [hs, hd] at h
      · simp only [hs, if_true, hd, if_false] at h
        obtain ⟨ds, hds, rfl⟩ := Option.map_eq_some'.mp h
        simp [revokeLoop_some newIp hds]
    · simp only [Bool.not_eq_true] at hs
      simp only [hs, Bool.false_eq_true, if_false] at h
      obtain ⟨ds, hds, rfl⟩ := Option.map_eq_some'.mp h
      simp [revokeLoop_some newIp hds]

/-- The loop takes its early return as soon as it reaches the new IP's own
key. -/
theorem revokeLoop_self (ip : String) (ks : List String) :
    revokeLoop ip (ipKey ip :: ks) = none := by
  unfold revokeLoop
  simp [ipKey, startswith_append, dropStr_append]

/-- A Trust Store state in which the invariant is already violated: identity
"alice" holds two trusted IPs at once. -/
def corrupt2 : RedisState :=
  [(ipKey "1.1.1.1", .hash [("username", "alice")]),
   (ipKey "2.2.2.2", .hash [("username", "alice")]),
   (userKey "alice", .rset [ipKey "1.1.1.1", ipKey "2.2.2.2"])]

/-- C2 as stated is false: from a store in which identity "alice" is indexed
to both 1.1.1.1 and 2.2.2.2, a call `trust_me("alice", "1.1.1.1")` completes
successfully (204, the early return of lines 100-102), yet the pipeline is
never executed, so the old IP 2.2.2.2 (different from the new IP) keeps its
trust record, remains in alice's index, and `check("2.2.2.2")` still
succeeds: more than one IP stays trusted on account of alice. -/
theorem spec_C2_counterexample :
    (trust_me_core [] corrupt2 true "alice" "1.1.1.1").status = 204 ∧
    (trust_me_core [] corrupt2 true "alice" "1.1.1.1").state = corrupt2 ∧
    rget corrupt2 (ipKey "2.2.2.2") = some (.hash [("username", "alice")]) ∧
    smembers corrupt2 (userKey "alice") = .ok [ipKey "1.1.1.1", ipKey "2.2.2.2"] ∧
    (check_core [] corrupt2 true "2.2.2.2").1 = 204 ∧
    (check_core [] corrupt2 true "1.1.1.1").1 = 204 ∧
    ("2.2.2.2" : String) ≠ "1.1.1.1" := by
  decide

/-- C2 amended: the self-healing holds only on the update path.  When the new
IP's key is not among the identity's stored member keys (and the state is not
so corrupted that the index keys collide with record keys or hold the wrong
type), a completed `trust_me(u, new_ip)` deletes every member key of `u`'s
index, rewrites the index to the singleton of the new key, and records the new
IP: at most one IP is then trusted on account of `u`.  When the new IP is
already among the stored member keys, the handler instead returns success
without deleting anything (see the counterexample). -/
theorem spec_C2 (subnets : List Net) (s : RedisState) (u newIp : String)
    (ms : List String)
    (hin : inAnySubnet subnets newIp = .ok false)
    (hsm : smembers s (userKey u) = .ok ms)
    (hnm : ipKey newIp ∉ ms)
    (hne : userKey u ≠ ipKey newIp)
    (hmu : userKey u ∉ ms)
    (hty : ∀ x, rget (ms.foldl rrem s) (ipKey newIp) ≠ some (.rset x)) :
    (trust_me_core subnets s true u newIp).status = 204 ∧
    smembers (trust_me_core subnets s true u newIp).state (userKey u) = .ok [ipKey newIp] ∧
    rexists (trust_me_core subnets s true u newIp).state (ipKey newIp) = true ∧
    ∀ k ∈ ms, rget (trust_me_core subnets s true u newIp).state k = none := by
  obtain ⟨fs, heq⟩ := trust_me_update subnets s u newIp ms hin hsm hnm hne hty
  rw [heq]
  refine ⟨rfl, ?_, ?_, ?_⟩
  · simp [smembers, rget_rput_self]
  · have hx : ipKey newIp ≠ userKey u := fun e => hne e.symm
    simp [rexists, rget_rput_ne _ _ _ _ hx, rget_rput_self]
  · intro k hk
    have h1 : k ≠ userKey u := fun e => hmu (e ▸ hk)
    have h2 : k ≠ ipKey newIp := fun e => hnm (e ▸ hk)
    show rget (rput _ _ _) k = none
    rw [rget_rput_ne _ _ _ _ h1, rget_rput_ne _ _ _ _ h2, rget_rrem, if_neg h1,
      rget_foldl_rrem, if_pos hk]

theorem spec_C2_witness :
    (trust_me_core [] corrupt2 true "alice" "3.3.3.3").status = 204 ∧
    smembers (trust_me_core [] corrupt2 true "alice" "3.3.3.3").state (userKey "alice") =
      .ok [ipKey "3.3.3.3"] ∧
    rexists (trust_me_core [] corrupt2 true "alice" "3.3.3.3").state (ipKey "3.3.3.3") = true ∧
    rget (trust_me_core [] corrupt2 true "alice" "3.3.3.3").state (ipKey "1.1.1.1") = none ∧
    rget (trust_me_core [] corrupt2 true "alice" "3.3.3.3").state (ipKey "2.2.2.2") = none := by
  have hty : ∀ x, rget ([ipKey "1.1.1.1", ipKey "2.2.2.2"].foldl rrem corrupt2)
      (ipKey "3.3.3.3") ≠ some (.rset x) := by
    intro x hx
    rw [show rget ([ipKey "1.1.1.1", ipKey "2.2.2.2"].foldl rrem corrupt2)
      (ipKey "3.3.3.3") = none from by decide] at hx
    cases hx
  have h := spec_C2 [] corrupt2 "alice" "3.3.3.3" [ipKey "1.1.1.1", ipKey "2.2.2.2"]
    (by decide) (by decide) (by decide) (by decide) (by decide) hty
  exact ⟨h.1, h.2.1, h.2.2.1, h.2.2.2 _ (by decide), h.2.2.2 _ (by decide)⟩

end IpWhitelist

namespace IpWhitelist

/-- C4: Idempotence of the claim operation.  For every identity `u` and IP
`ip` not in a trusted range, if `trust_me(u, ip)` completed successfully
(status 204, store reachable), an immediately repeated `trust_me(u, ip)`
returns success through the Unchanged path (the early return of lines
100-102), leaves the state unchanged, and sends zero write commands to the
store. -/
theorem spec_C4 (subnets : List Net) (s : RedisState) (u ip : String)
    (hin : inAnySubnet subnets ip = .ok false)
    (h1 : (trust_me_core subnets s true u ip).status = 204) :
    trust_me_core subnets (trust_me_core subnets s true u ip).state true u ip =
      ⟨204, .unchanged, (trust_me_core subnets s true u ip).state, 0⟩ := by
  cases hsm : smembers s (userKey u) with
  | error e =>
    simp [trust_me_core, hin, hsm] at h1
  | ok ms =>
    cases hrv : revokeLoop ip ms with
    | none =>
      have hfirst : trust_me_core subnets s true u ip = ⟨204, .unchanged, s, 0⟩ := by
        simp [trust_me_core, hin, hsm, hrv]
      rw [hfirst]
      simp [trust_me_core, hin, hsm, hrv]
    | some dels =>
      have hdel := revokeLoop_some ip hrv
      subst hdel
      cases herr2 : (execPipe (ms.foldl rrem s) [Cmd.del (userKey u),
          Cmd.hset (ipKey ip) "username" u, Cmd.sadd (userKey u) (ipKey ip)]).2 with
      | true =>
        simp [trust_me_core, hin, hsm, hrv, execPipe_append, execPipe_map_del, herr2] at h1
      | false =>
        have hne : userKey u ≠ ipKey ip := by
          intro e
          have hx := execPipe_tail_err (ms.foldl rrem s) (userKey u) (ipKey ip) u (Or.inr e)
          rw [hx] at herr2
          cases herr2
        have hty' : ∀ x, rget (rrem (ms.foldl rrem s) (userKey u)) (ipKey ip) ≠
            some (.rset x) := by
          intro x hx
          have he := execPipe_tail_err (ms.foldl rrem s) (userKey u) (ipKey ip) u
            (Or.inl ⟨x, hx⟩)
          rw [he] at herr2
          cases herr2
        obtain ⟨fs, hex⟩ := execPipe_tail_ok (ms.foldl rrem s) (userKey u) (ipKey ip) u
          hty' hne
        have hfirst : trust_me_core subnets s true u ip =
            ⟨204, .updated,
              rput (rput (rrem (ms.foldl rrem s) (userKey u)) (ipKey ip) (.hash fs))
                (userKey u) (.rset [ipKey ip]),
              (ms.map Cmd.del ++ [Cmd.del (userKey u), Cmd.hset (ipKey ip) "username" u,
                Cmd.sadd (userKey u) (ipKey ip)]).length⟩ := by
          simp [trust_me_core, hin, hsm, hrv, execPipe_append, execPipe_map_del, hex]
        rw [hfirst]
        have hsm' : smembers (rput (rput (rrem (ms.foldl rrem s) (userKey u)) (ipKey ip)
            (.hash fs)) (userKey u) (.rset [ipKey ip])) (userKey u) = .ok [ipKey ip] := by
          simp [smembers, rget_rput_self]
        simp [trust_me_core, hin, hsm', revokeLoop_self]

theorem spec_C4_witness :
    inAnySubnet [⟨ipNum ⟨10, 0, 0, 0⟩, 8⟩] "8.8.8.8" = .ok false ∧
    (trust_me_core [⟨ipNum ⟨10, 0, 0, 0⟩, 8⟩] [] true "alice" "8.8.8.8").status = 204 ∧
    trust_me_core [⟨ipNum ⟨10, 0, 0, 0⟩, 8⟩]
        (trust_me_core [⟨ipNum ⟨10, 0, 0, 0⟩, 8⟩] [] true "alice" "8.8.8.8").state
        true "alice" "8.8.8.8" =
      ⟨204, .unchanged,
        (trust_me_core [⟨ipNum ⟨10, 0, 0, 0⟩, 8⟩] [] true "alice" "8.8.8.8").state, 0⟩ :=
  ⟨by decide, by decide, spec_C4 _ _ _ _ (by decide) (by decide)⟩

end IpWhitelist

namespace IpWhitelist

/-- C1: For every identity `u` and distinct IPs `a`, `b` outside the trusted
ranges, starting from a state in which neither IP has a trust record and `u`
has no index entry (in particular from the empty store), `trust_me(u, a)`
succeeds, then `trust_me(u, b)` succeeds, after which `check(a)` is denied
(403) and `check(b)` succeeds (204); and in none of the three reachable
states (before, between, after — the pipeline is one atomic MULTI/EXEC, so no
other state is observable) do `check(a)` and `check(b)` both succeed.  The
two key-disjointness hypotheses record that an IP string is never of the form
"user:…", which holds for every real address. -/
theorem spec_C1 (subnets : List Net) (s : RedisState) (u a b : String)
    (hab : a ≠ b)
    (ha : inAnySubnet subnets a = .ok false)
    (hb : inAnySubnet subnets b = .ok false)
    (hka : rget s (ipKey a) = none)
    (hkb : rget s (ipKey b) = none)
    (hku : rget s (userKey u) = none)
    (hua : userKey u ≠ ipKey a)
    (hub : userKey u ≠ ipKey b) :
    (trust_me_core subnets s true u a).status = 204 ∧
    (trust_me_core subnets (trust_me_core subnets s true u a).state true u b).status = 204 ∧
    (check_core subnets
      (trust_me_core subnets (trust_me_core subnets s true u a).state true u b).state
      true a).1 = 403 ∧
    (check_core subnets
      (trust_me_core subnets (trust_me_core subnets s true u a).state true u b).state
      true b).1 = 204 ∧
    ∀ st ∈ [s, (trust_me_core subnets s true u a).state,
        (trust_me_core subnets (trust_me_core subnets s true u a).state true u b).state],
      ¬ ((check_core subnets st true a).1 = 204 ∧ (check_core subnets st true b).1 = 204) := by
  have hau : ipKey a ≠ userKey u := fun e => hua e.symm
  have hbu : ipKey b ≠ userKey u := fun e => hub e.symm
  have hba : ipKey b ≠ ipKey a := fun e => hab (ipKey_inj e).symm
  have hab' : ipKey a ≠ ipKey b := fun e => hab (ipKey_inj e)
  have hsm1 : smembers s (userKey u) = .ok [] := by simp [smembers, hku]
  obtain ⟨fs1, h1⟩ := trust_me_update subnets s u a [] ha hsm1 (by simp) hua
    (by intro x; simp [hka])
  simp only [List.foldl_nil] at h1
  have hb1 : rget (rput (rput (rrem s (userKey u)) (ipKey a) (.hash fs1)) (userKey u)
      (.rset [ipKey a])) (ipKey b) = none := by
    rw [rget_rput_ne _ _ _ _ hbu, rget_rput_ne _ _ _ _ hba, rget_rrem, if_neg hbu, hkb]
  have hsm2 : smembers (rput (rput (rrem s (userKey u)) (ipKey a) (.hash fs1)) (userKey u)
      (.rset [ipKey a])) (userKey u) = .ok [ipKey a] := by
    simp [smembers, rget_rput_self]
  have hty2 : ∀ x, rget ([ipKey a].foldl rrem
      (rput (rput (rrem s (userKey u)) (ipKey a) (.hash fs1)) (userKey u)
        (.rset [ipKey a]))) (ipKey b) ≠ some (.rset x) := by
    intro x
    show rget (rrem _ (ipKey a)) (ipKey b) ≠ some (.rset x)
    rw [rget_rrem, if_neg hba, hb1]
    simp
  obtain ⟨fs2, h2⟩ := trust_me_update subnets
    (rput (rput (rrem s (userKey u)) (ipKey a) (.hash fs1)) (userKey u) (.rset [ipKey a]))
    u b [ipKey a] hb hsm2 (by simp [hba]) hub hty2
  simp only [List.foldl_cons, List.foldl_nil] at h2
  have hs2a : rget (rput (rput (rrem (rrem
      (rput (rput (rrem s (userKey u)) (ipKey a) (.hash fs1)) (userKey u)
        (.rset [ipKey a])) (ipKey a)) (userKey u)) (ipKey b) (.hash fs2)) (userKey u)
      (.rset [ipKey b])) (ipKey a) = none := by
    rw [rget_rput_ne _ _ _ _ hau, rget_rput_ne _ _ _ _ hab', rget_rrem, if_neg hau,
      rget_rrem, if_pos rfl]
  have hs2b : rget (rput (rput (rrem (rrem
      (rput (rput (rrem s (userKey u)) (ipKey a) (.hash fs1)) (userKey u)
        (.rset [ipKey a])) (ipKey a)) (userKey u)) (ipKey b) (.hash fs2)) (userKey u)
      (.rset [ipKey b])) (ipKey b) = some (.hash fs2) := by
    rw [rget_rput_ne _ _ _ _ hbu, rget_rput_self]
  refine ⟨?_, ?_, ?_, ?_, ?_⟩
  · rw [h1]
  · simp only [h1]
    rw [h2]
  · simp only [h1]
    rw [h2]
    simp only [check_core_store _ _ _ ha, rexists, hs2a]
    rfl
  · simp only [h1]
    rw [h2]
    simp only [check_core_store _ _ _ hb, rexists, hs2b]
    rfl
  · intro st hst
    simp only [h1, h2, List.mem_cons, List.not_mem_nil, or_false] at hst
    rintro ⟨hA, hB⟩
    rcases hst with rfl | rfl | rfl
    · rw [check_core_store _ _ _ ha] at hA
      simp only [rexists, hka] at hA
      simp at hA
    · rw [check_core_store _ _ _ hb] at hB
      simp only [rexists, hb1] at hB
      simp at hB
    · rw [check_core_store _ _ _ ha] at hA
      simp only [rexists, hs2a] at hA
      simp at hA

theorem spec_C1_witness :
    (trust_me_core [] [] true "alice" "8.8.8.8").status = 204 ∧
    (trust_me_core [] (trust_me_core [] [] true "alice" "8.8.8.8").state
      true "alice" "9.9.9.9").status = 204 ∧
    (check_core []
      (trust_me_core [] (trust_me_core [] [] true "alice" "8.8.8.8").state
        true "alice" "9.9.9.9").state true "8.8.8.8").1 = 403 ∧
    (check_core []
      (trust_me_core [] (trust_me_core [] [] true "alice" "8.8.8.8").state
        true "alice" "9.9.9.9").state true "9.9.9.9").1 = 204 := by
  have h := spec_C1 [] [] "alice" "8.8.8.8" "9.9.9.9" (by decide) (by decide) (by decide)
    (by decide) (by decide) (by decide) (by decide) (by decide)
  exact ⟨h.1, h.2.1, h.2.2.1, h.2.2.2.1⟩

end IpWhitelist

namespace IpWhitelist

/-- C10: IP canonicalization at the boundary.  For a request carrying the
configured client-IP header with value `v`: (1) when the first
comma-separated, whitespace-trimmed token of `v` parses as an address `addr`,
the extracted client IP — the string later used to form the store key
`ipKey` in both `check` and `trust_me` — is the canonical re-serialized form
`ipv4Str addr`, and `check` consults the store at exactly that canonical key;
hence any two header spellings denoting the same address map to the same
store key (2); and (3) when the token does not parse, both handlers answer
400 with zero store accesses, zero writes and the state untouched. -/
theorem spec_C10 (cfgIpHeader cfgUserHeader : Option String)
    (headers : List (String × String)) (v : String)
    (subnets : List Net) (s : RedisState) (storeOk : Bool)
    (hv : headers.lookup (cfgIpHeader.getD "X-Forwarded-For") = some v) :
    (∀ addr, parseIPv4 (headerToken v) = some addr →
      get_client_ip cfgIpHeader headers = .ok (ipv4Str addr) ∧
      check_req cfgIpHeader headers subnets s storeOk =
        check_core subnets s storeOk (ipv4Str addr)) ∧
    (∀ addr (headers2 : List (String × String)) (v2 : String),
      parseIPv4 (headerToken v) = some addr →
      headers2.lookup (cfgIpHeader.getD "X-Forwarded-For") = some v2 →
      parseIPv4 (headerToken v2) = some addr →
      get_client_ip cfgIpHeader headers = get_client_ip cfgIpHeader headers2) ∧
    (parseIPv4 (headerToken v) = none →
      check_req cfgIpHeader headers subnets s storeOk = (400, 0) ∧
      trust_me_req cfgIpHeader cfgUserHeader headers subnets s storeOk =
        ⟨400, .inputError, s, 0⟩) := by
  refine ⟨?_, ?_, ?_⟩
  · intro addr ha
    constructor
    · simp [get_client_ip, hv, ha]
    · simp [check_req, get_client_ip, hv, ha]
  · intro addr headers2 v2 h1 hv2 h2
    simp [get_client_ip, hv, h1, hv2, h2]
  · intro hn
    have hip : get_client_ip cfgIpHeader headers = .error () := by
      simp [get_client_ip, hv, hn]
    constructor
    · simp [check_req, hip]
    · simp [trust_me_req, hip]

theorem spec_C10_witness :
    get_client_ip none [("X-Forwarded-For", "  8.8.8.8 ,1.2.3.4")] = .ok "8.8.8.8" ∧
    get_client_ip none [("X-Forwarded-For", "  8.8.8.8 ,1.2.3.4")] =
      get_client_ip none [("X-Forwarded-For", "8.8.8.8")] ∧
    check_req none [("X-Forwarded-For", "not.an.ip.addr")] [] [] true = (400, 0) ∧
    trust_me_req none (some "X-User") [("X-Forwarded-For", "not.an.ip.addr"),
      ("X-User", "alice")] [] [] true = ⟨400, .inputError, [], 0⟩ := by
  have h1 := (spec_C10 none (some "X-User") [("X-Forwarded-For", "  8.8.8.8 ,1.2.3.4")]
    "  8.8.8.8 ,1.2.3.4" [] [] true (by decide)).1 ⟨8, 8, 8, 8⟩ (by decide)
  have h2 := (spec_C10 none (some "X-User") [("X-Forwarded-For", "  8.8.8.8 ,1.2.3.4")]
    "  8.8.8.8 ,1.2.3.4" [] [] true (by decide)).2.1 ⟨8, 8, 8, 8⟩
    [("X-Forwarded-For", "8.8.8.8")] "8.8.8.8" (by decide) (by decide) (by decide)
  have h3 := (spec_C10 none (some "X-User") [("X-Forwarded-For", "not.an.ip.addr"),
    ("X-User", "alice")] "not.an.ip.addr" [] [] true (by decide)).2.2 (by decide)
  refine ⟨?_, h2, ?_, h3.2⟩
  · rw [show ("8.8.8.8" : String) = ipv4Str ⟨8, 8, 8, 8⟩ from by decide]
    exact h1.1
  · have h4 := (spec_C10 none (some "X-User") [("X-Forwarded-For", "not.an.ip.addr")]
      "not.an.ip.addr" [] [] true (by decide)).2.2 (by decide)
    exact h4.1

end IpWhitelist
